import Mathlib

/-!
Verification of the `og-check` CLI (src/index.ts): a shallow embedding of its
extractor (`parseHtml`), entity decoder (`decodeHtmlEntities`), validator
(`validateTags`), fetch redirect loop (`fetchUrl`), argument parser
(`parseArgs`) and the `main` output/exit logic, together with theorems
settling the specification claims about them.

Machine strings are modelled as Lean `String` (lists of characters); JS
`undefined` is modelled as `Option.none`; JS truthiness of a string-valued
slot (`undefined` and `""` are falsy) is modelled explicitly.
-/

/-! ## JS-style character and string helpers -/

/-- ASCII lower-casing of a character, as used by `String.prototype.toLowerCase`
and case-insensitive (`/i`) regex matching on the ASCII names appearing in the
source patterns. -/
def asciiLower (ch : Char) : Char :=
  if 'A' ≤ ch ∧ ch ≤ 'Z' then Char.ofNat (ch.toNat + 32) else ch

/-- Case-insensitive character comparison (models `/i` regex matching). -/
def ciEq (a b : Char) : Bool := asciiLower a == asciiLower b

/-- Case-insensitive test that `pat` begins the list `s`. -/
def ciIsPre : List Char → List Char → Bool
  | [], _ => true
  | _ :: _, [] => false
  | p :: ps, ch :: cs => ciEq p ch && ciIsPre ps cs

/-- If `pat` case-insensitively begins `s`, return the remainder of `s`. -/
def dropPre? (pat s : List Char) : Option (List Char) :=
  if ciIsPre pat s then some (s.drop pat.length) else none

/-- JS `\s` / `String.prototype.trim` whitespace, restricted to the common
ASCII whitespace characters. -/
def isJsWs (ch : Char) : Bool :=
  ch == ' ' || ch == '\t' || ch == '\n' || ch == '\r' || ch == '\x0b' || ch == '\x0c'

/-- A single or double quote character (the regex character class `["']`). -/
def isQuote (ch : Char) : Bool := ch == '"' || ch == '\x27'

/-- JS `str.startsWith(pre)` (case-sensitive). -/
def jsStarts (s pre : String) : Bool := pre.toList.isPrefixOf s.toList

/-- JS `String.prototype.trim` on a character list. -/
def trimJs (cs : List Char) : List Char :=
  ((cs.dropWhile isJsWs).reverse.dropWhile isJsWs).reverse

/-- One pass of JS `str.replace(/pat/g, rep)` for a literal pattern `pat`:
scan left to right, replace each non-overlapping occurrence, and continue
after the replacement text (replaced text is not rescanned).  `fuel` bounds
the recursion; `fuel = s.length` always suffices for a nonempty pattern. -/
def replaceAllFuel : Nat → List Char → List Char → List Char → List Char
  | 0, s, _, _ => s
  | fuel + 1, s, pat, rep =>
    match s with
    | [] => []
    | ch :: cs =>
      if !pat.isEmpty && pat.isPrefixOf s then
        rep ++ replaceAllFuel fuel (s.drop pat.length) pat rep
      else
        ch :: replaceAllFuel fuel cs pat rep

/-- JS `text.replace(/pat/g, rep)` for a literal pattern, on strings. -/
def jsReplaceAll (s pat rep : String) : String :=
  String.mk (replaceAllFuel s.toList.length s.toList pat.toList rep.toList)

/-- `decodeHtmlEntities` from src/index.ts: eight sequential global literal
replacements, in source order (`&amp;` first). -/
def decodeHtmlEntities (text : String) : String :=
  jsReplaceAll (jsReplaceAll (jsReplaceAll (jsReplaceAll (jsReplaceAll
    (jsReplaceAll (jsReplaceAll (jsReplaceAll text
      "&amp;" "&")
      "&lt;" "<")
      "&gt;" ">")
      "&quot;" "\"")
      "&#39;" "\x27")
      "&#x27;" "\x27")
      "&#x2F;" "/")
      "&nbsp;" " "

/-! ## JS `parseInt` -/

/-- Value of a hexadecimal digit, if any. -/
def hexDigitVal? (ch : Char) : Option Nat :=
  if '0' ≤ ch ∧ ch ≤ '9' then some (ch.toNat - '0'.toNat)
  else if 'a' ≤ ch ∧ ch ≤ 'f' then some (ch.toNat - 'a'.toNat + 10)
  else if 'A' ≤ ch ∧ ch ≤ 'F' then some (ch.toNat - 'A'.toNat + 10)
  else none

/-- Accumulate a list of digit values in base `b`. -/
def digitsValue (b : Nat) (ds : List Nat) : Nat :=
  ds.foldl (fun acc d => acc * b + d) 0

/-- JS `parseInt(s)` with no radix argument: skip leading whitespace, read an
optional sign, honour a `0x`/`0X` hexadecimal prefix, then take the maximal
prefix of digits (trailing garbage ignored).  `none` models `NaN` (no digits
at all). -/
def parseIntJS (s : String) : Option Int :=
  let cs := s.toList.dropWhile isJsWs
  let signAndRest : Int × List Char :=
    match cs with
    | '+' :: r => (1, r)
    | '-' :: r => (-1, r)
    | _ => (1, cs)
  let sgn := signAndRest.1
  let cs1 := signAndRest.2
  match cs1 with
  | '0' :: x :: r =>
    if x == 'x' || x == 'X' then
      let ds := (r.map hexDigitVal?).takeWhile Option.isSome
      if ds.isEmpty then none
      else some (sgn * (digitsValue 16 (ds.map (·.getD 0)) : Nat))
    else
      let ds := cs1.takeWhile Char.isDigit
      some (sgn * (digitsValue 10 (ds.map (fun ch => ch.toNat - '0'.toNat)) : Nat))
  | _ =>
    let ds := cs1.takeWhile Char.isDigit
    if ds.isEmpty then none
    else some (sgn * (digitsValue 10 (ds.map (fun ch => ch.toNat - '0'.toNat)) : Nat))

/-- JS `<` between a possibly-NaN number and a literal: every comparison with
`NaN` is false. -/
def jsLtNum (a : Option Int) (b : Int) : Bool :=
  match a with
  | some v => v < b
  | none => false

/-- JS template interpolation of a possibly-NaN number. -/
def showJsNum (a : Option Int) : String :=
  match a with
  | some v => toString v
  | none => "NaN"

/-! ## String-keyed maps with JS object semantics -/

/-- Lookup in a string-keyed association list (JS property read; `none` is
`undefined`). -/
def getKV {β : Type} (m : List (String × β)) (k : String) : Option β :=
  (m.find? (fun p => p.1 == k)).map (·.2)

/-- JS property assignment: overwrite the existing entry, else append. -/
def setKV {β : Type} (m : List (String × β)) (k : String) (v : β) : List (String × β) :=
  if m.any (fun p => p.1 == k) then
    m.map (fun p => if p.1 == k then (k, v) else p)
  else m ++ [(k, v)]

/-- The extractor's output: lower-cased metadata keys mapped to string
values (the `OgTags` object of src/index.ts). -/
abbrev MetadataMap := List (String × String)

/-- Read a metadata slot (`tags[k]`). -/
def getTag (m : MetadataMap) (k : String) : Option String := getKV m k

/-- Write a metadata slot (`tags[k] = v`). -/
def setTag (m : MetadataMap) (k v : String) : MetadataMap := setKV m k v

/-- JS truthiness of the string slot `tags[k]` (`undefined` and `""` are
falsy). -/
def truthy (m : MetadataMap) (k : String) : Bool :=
  match getTag m k with
  | some s => s != ""
  | none => false

/-- JS `x || d` for a string slot: the slot's value if truthy, else `d`. -/
def jsOrStr (o : Option String) (d : String) : String :=
  match o with
  | some s => if s == "" then d else s
  | none => d

/-! ## URL resolution

`validateTags` and the redirect loop call the platform's WHATWG parser via
`new URL(rel, base).toString()`.  The model below covers the reference kinds
exercised by this program against an `http(s)` base URL — scheme-relative
(`//…`), absolute-path (`/…`) and relative-path references — without
percent-encoding or path normalization. -/

/-- Scheme of an absolute URL: the characters before the first `:`. -/
def urlScheme (u : List Char) : List Char := u.takeWhile (· != ':')

/-- Resolution of the reference `rel` against the absolute base URL `base`,
as performed by `new URL(rel, base).toString()` (see the section comment for
the modelled scope). -/
def urlResolve (rel base : String) : String :=
  let r := rel.toList
  let b := base.toList
  let scheme := urlScheme b
  if "//".toList.isPrefixOf r then
    String.mk (scheme ++ ':' :: r)
  else if "/".toList.isPrefixOf r then
    let afterScheme := (b.drop scheme.length).drop 3
    let host := afterScheme.takeWhile (· != '/')
    String.mk (scheme ++ "://".toList ++ host ++ r)
  else
    let dir := (b.reverse.dropWhile (· != '/')).reverse
    String.mk (dir ++ r)

/-! ## Issues and the validator -/

/-- Issue severity (`'error' | 'warning' | 'info'`). -/
inductive Severity where
  | error
  | warning
  | info
deriving DecidableEq, Repr

/-- An `OgIssue` record from src/index.ts. -/
structure Issue where
  tag : String
  problem : String
  fix : String
  severity : Severity
deriving DecidableEq, Repr

/-- `issue.severity === 'error'`. -/
def isError (i : Issue) : Bool :=
  match i.severity with
  | Severity.error => true
  | _ => false

/-- The `og:title` paragraph of `validateTags`: missing tag (error), else
over-length title (warning). -/
def ogTitleIssues (tags : MetadataMap) : List Issue :=
  if !(truthy tags "og:title") then
    [{ tag := "og:title",
       problem := "Missing og:title. Social platforms won\x27t show a proper title for your link.",
       fix := "<meta property=\"og:title\" content=\"" ++ jsOrStr (getTag tags "title") "Your Page Title" ++ "\" />",
       severity := Severity.error }]
  else if ((getTag tags "og:title").getD "").length > 95 then
    [{ tag := "og:title",
       problem := "og:title is " ++ toString ((getTag tags "og:title").getD "").length ++ " chars. It\x27ll get truncated on most platforms (keep under 60-95 chars).",
       fix := "Shorten your og:title to under 60 characters for best display.",
       severity := Severity.warning }]
  else []

/-- The `og:description` paragraph of `validateTags`. -/
def ogDescriptionIssues (tags : MetadataMap) : List Issue :=
  if !(truthy tags "og:description") then
    [{ tag := "og:description",
       problem := "Missing og:description. Your link preview won\x27t have a description snippet.",
       fix := "<meta property=\"og:description\" content=\"" ++ jsOrStr (getTag tags "description") "A brief description of your page" ++ "\" />",
       severity := Severity.error }]
  else if ((getTag tags "og:description").getD "").length > 300 then
    [{ tag := "og:description",
       problem := "og:description is " ++ toString ((getTag tags "og:description").getD "").length ++ " chars. Keep it under 200 for best display.",
       fix := "Shorten your og:description to under 200 characters.",
       severity := Severity.warning }]
  else []

/-- The `og:image` paragraph of `validateTags`: missing image (error), else
the absolute-URL check, the dimension checks (`parseInt` comparisons against
200) and the alt-text check, in source order. -/
def ogImageIssues (tags : MetadataMap) (url : String) : List Issue :=
  if !(truthy tags "og:image") then
    [{ tag := "og:image",
       problem := "Missing og:image. Your link will have no preview image on any platform.",
       fix := "<meta property=\"og:image\" content=\"https://yoursite.com/og-image.png\" />",
       severity := Severity.error }]
  else
    (if !(jsStarts ((getTag tags "og:image").getD "") "http") then
      [{ tag := "og:image",
         problem := "og:image should be an absolute URL (starting with https://). Relative URLs won\x27t work.",
         fix := "<meta property=\"og:image\" content=\"" ++ urlResolve ((getTag tags "og:image").getD "") url ++ "\" />",
         severity := Severity.error }]
     else [])
    ++ (if !(truthy tags "og:image:width") || !(truthy tags "og:image:height") then
      [{ tag := "og:image:width/height",
         problem := "Missing og:image:width and og:image:height. Some platforms won\x27t show the image without dimensions.",
         fix := "<meta property=\"og:image:width\" content=\"1200\" />\n<meta property=\"og:image:height\" content=\"630\" />",
         severity := Severity.warning }]
     else
      let w := parseIntJS ((getTag tags "og:image:width").getD "")
      let h := parseIntJS ((getTag tags "og:image:height").getD "")
      if jsLtNum w 200 || jsLtNum h 200 then
        [{ tag := "og:image",
           problem := "Image is " ++ showJsNum w ++ "x" ++ showJsNum h ++ "px. Most platforms need at least 200x200px. Facebook recommends 1200x630px.",
           fix := "Use an image that\x27s at least 1200x630px for best results.",
           severity := Severity.warning }]
      else [])
    ++ (if !(truthy tags "og:image:alt") then
      [{ tag := "og:image:alt",
         problem := "Missing og:image:alt. Add alt text for accessibility.",
         fix := "<meta property=\"og:image:alt\" content=\"Description of the image\" />",
         severity := Severity.info }]
     else [])

/-- The `og:url` rule of `validateTags`. -/
def ogUrlIssues (tags : MetadataMap) (url : String) : List Issue :=
  if !(truthy tags "og:url") then
    [{ tag := "og:url",
       problem := "Missing og:url. Platforms won\x27t know the canonical URL for your page.",
       fix := "<meta property=\"og:url\" content=\"" ++ url ++ "\" />",
       severity := Severity.warning }]
  else []

/-- The `og:type` rule of `validateTags`. -/
def ogTypeIssues (tags : MetadataMap) : List Issue :=
  if !(truthy tags "og:type") then
    [{ tag := "og:type",
       problem := "Missing og:type. Defaults to \"website\" but it\x27s better to be explicit.",
       fix := "<meta property=\"og:type\" content=\"website\" />",
       severity := Severity.info }]
  else []

/-- The `twitter:card` rule of `validateTags`. -/
def twitterCardIssues (tags : MetadataMap) : List Issue :=
  if !(truthy tags "twitter:card") then
    [{ tag := "twitter:card",
       problem := "Missing twitter:card. Twitter won\x27t show a rich preview without it.",
       fix := "<meta name=\"twitter:card\" content=\"summary_large_image\" />",
       severity := Severity.warning }]
  else []

/-- The `twitter:title` rule of `validateTags`. -/
def twitterTitleIssues (tags : MetadataMap) : List Issue :=
  if !(truthy tags "twitter:title") && !(truthy tags "og:title") then
    [{ tag := "twitter:title",
       problem := "No twitter:title or og:title. Twitter won\x27t display a title.",
       fix := "<meta name=\"twitter:title\" content=\"Your Page Title\" />",
       severity := Severity.error }]
  else []

/-- The `twitter:image` rule of `validateTags`. -/
def twitterImageIssues (tags : MetadataMap) : List Issue :=
  if !(truthy tags "twitter:image") && !(truthy tags "og:image") then
    [{ tag := "twitter:image",
       problem := "No twitter:image or og:image. Twitter preview will have no image.",
       fix := "<meta name=\"twitter:image\" content=\"https://yoursite.com/twitter-image.png\" />",
       severity := Severity.warning }]
  else []

/-- The `<title>` rule of `validateTags`. -/
def titleIssues (tags : MetadataMap) : List Issue :=
  if !(truthy tags "title") then
    [{ tag := "title",
       problem := "Missing <title> tag. This affects SEO and browser tab display.",
       fix := "<title>Your Page Title</title>",
       severity := Severity.warning }]
  else []

/-- The meta-description rule of `validateTags`. -/
def descriptionIssues (tags : MetadataMap) : List Issue :=
  if !(truthy tags "description") then
    [{ tag := "description",
       problem := "Missing meta description. Search engines use this for search result snippets.",
       fix := "<meta name=\"description\" content=\"A brief description\" />",
       severity := Severity.info }]
  else []

/-- The canonical-link rule of `validateTags`. -/
def canonicalIssues (tags : MetadataMap) (url : String) : List Issue :=
  if !(truthy tags "canonical") then
    [{ tag := "canonical",
       problem := "Missing canonical URL. This helps prevent duplicate content issues.",
       fix := "<link rel=\"canonical\" href=\"" ++ url ++ "\" />",
       severity := Severity.info }]
  else []

/-- `validateTags` from src/index.ts: all rule paragraphs evaluated
unconditionally, issues accumulated in source order. -/
def validateTags (tags : MetadataMap) (url : String) : List Issue :=
  ogTitleIssues tags
  ++ ogDescriptionIssues tags
  ++ ogImageIssues tags url
  ++ ogUrlIssues tags url
  ++ ogTypeIssues tags
  ++ twitterCardIssues tags
  ++ twitterTitleIssues tags
  ++ twitterImageIssues tags
  ++ titleIssues tags
  ++ descriptionIssues tags
  ++ canonicalIssues tags url

/-! ## Reporter and exit-code logic from `main` -/

/-- The `valid` field of the JSON report: `errors === 0` where `errors`
counts the issues of severity error (src/index.ts, JSON output branch). -/
def jsonValid (issues : List Issue) : Bool :=
  (issues.filter isError).length == 0

/-- The process exit code governed by the final `if` of `main`: in `--ci`
mode, exit 1 when some issue has severity error; otherwise the process falls
through and exits 0. -/
def ciExitCode (ciMode : Bool) (issues : List Issue) : Nat :=
  if ciMode && issues.any isError then 1 else 0

/-! ## The fetch redirect loop (`fetchUrl`) -/

/-- An HTTP response as seen by the `doFetch` callback: status code, the
`Location` header (if any) and the body text.  (The remaining response
headers are passed through unchanged by `fetchUrl` and play no role in the
redirect logic.) -/
structure HttpResponse where
  statusCode : Nat
  location : Option String
  body : String
deriving DecidableEq, Repr

/-- A successful fetch result: status, body and the URL of the final hop. -/
structure FetchOk where
  statusCode : Nat
  body : String
  finalUrl : String
deriving DecidableEq, Repr

/-- The redirect test of `doFetch`: a truthy status in `[300, 400)` together
with a truthy `Location` header. -/
def isRedirectResp (r : HttpResponse) : Bool :=
  decide (300 ≤ r.statusCode) && decide (r.statusCode < 400) &&
    (match r.location with
     | some l => l != ""
     | none => false)

/-- `doFetch` from `fetchUrl` in src/index.ts, with the network replaced by
the list of responses the server produces for the successive requests: the
`redirects > 5` guard runs on entry, a redirect response recurses on the
resolved `Location` with the counter incremented, and any other response
resolves with the current URL as `finalUrl`.  An exhausted response list
models a transport error. -/
def doFetch (chain : List HttpResponse) (url : String) (redirects : Nat) :
    Except String FetchOk :=
  if redirects > 5 then Except.error "Too many redirects"
  else
    match chain with
    | [] => Except.error "no response"
    | r :: rest =>
      if isRedirectResp r then
        let loc := r.location.getD ""
        let nextUrl := if jsStarts loc "http" then loc else urlResolve loc url
        doFetch rest nextUrl (redirects + 1)
      else Except.ok ⟨r.statusCode, r.body, url⟩

/-- `fetchUrl`: start the redirect loop at the target URL with counter 0. -/
def fetchUrlModel (chain : List HttpResponse) (targetUrl : String) : Except String FetchOk :=
  doFetch chain targetUrl 0

/-- A redirect response with the given `Location`. -/
def mkRedirectResp (loc : String) : HttpResponse := ⟨301, some loc, ""⟩

/-- A plain 200 response with the given body. -/
def mkOkResp (body : String) : HttpResponse := ⟨200, none, body⟩

/-! ## Argument parsing (`parseArgs`) and the entry checks of `main` -/

/-- A parsed option value: JS `string | boolean`. -/
inductive ArgVal where
  | str (s : String)
  | bool (b : Bool)
deriving DecidableEq, Repr

/-- JS truthiness of an option slot. -/
def truthyArg (o : Option ArgVal) : Bool :=
  match o with
  | some (ArgVal.str s) => s != ""
  | some (ArgVal.bool b) => b
  | none => false

/-- The loop of `parseArgs`: a `--key=value` token stores `value`; a bare
`--flag` token consumes the following token as its value when that token does
not start with `-`, else stores `true`; anything else is positional. -/
def parseArgsLoop : List String → List (String × ArgVal) → List String →
    List (String × ArgVal) × List String
  | [], args, pos => (args, pos)
  | a :: rest, args, pos =>
    if jsStarts a "--" then
      let ps := a.toList
      if ps.contains '=' then
        let key := String.mk ((ps.drop 2).takeWhile (· != '='))
        let v := String.mk (((ps.drop 2).dropWhile (· != '=')).drop 1)
        parseArgsLoop rest (setKV args key (ArgVal.str v)) pos
      else
        match _hr : rest with
        | b :: rest2 =>
          if !(jsStarts b "-") then
            parseArgsLoop rest2 (setKV args (String.mk (ps.drop 2)) (ArgVal.str b)) pos
          else
            parseArgsLoop rest (setKV args (String.mk (ps.drop 2)) (ArgVal.bool true)) pos
        | [] =>
          parseArgsLoop [] (setKV args (String.mk (ps.drop 2)) (ArgVal.bool true)) pos
    else
      parseArgsLoop rest args (pos ++ [a])
termination_by l _ _ => l.length
decreasing_by
  all_goals simp_wf
  all_goals (try simp_all [List.length_cons])
  all_goals omega

/-- `parseArgs` from src/index.ts: run the loop, then record the first
positional token (if any) under `_url`. -/
def parseArgs (argv : List String) : List (String × ArgVal) :=
  let r := parseArgsLoop argv [] []
  match r.2 with
  | [] => r.1
  | p :: _ => setKV r.1 "_url" (ArgVal.str p)

/-- The early checks of `main`: a truthy `help` option prints usage and exits
0; a falsy `_url` reports a usage error and exits 1; otherwise `main`
proceeds (`none`). -/
def mainEarlyExit (args : List (String × ArgVal)) : Option Nat :=
  if truthyArg (getKV args "help") then some 0
  else if !(truthyArg (getKV args "_url")) then some 1
  else none

/-! ## The extractor (`parseHtml`)

Each regex of the source is modelled by a matcher on `List Char`.  A matcher
tries to match at the head of its input; `scanFor` applies it at every
position left to right, giving the leftmost match, exactly as `String.match`
and a `g`-regex `exec` loop do.  Inside an element, the all-consuming pieces
(`\s*`, `[^>]*` up to `>`, `[^"']*` up to a quote) are modelled by
`dropWhile`/`takeWhile`; for the greedy `[^>]*` gaps of the description,
canonical and favicon patterns the model commits to the first occurrence of
each attribute, which agrees with the regex whenever the element mentions the
attribute once. -/

/-- Leftmost match: try the matcher `f` at each position of the input,
left to right. -/
def scanFor {α : Type} (f : List Char → Option α) : List Char → Option α
  | [] => none
  | ch :: cs =>
    match f (ch :: cs) with
    | some v => some v
    | none => scanFor f cs

/-- The part of the `<title>` regex `/<title[^>]*>([^<]*)<\/title>/i` after
the initial `<`: the tag name, attribute junk up to `>`, the captured text up
to `<`, and the closing tag. -/
def titleCore (s : List Char) : Option (List Char) := do
  let r1 ← dropPre? "title".toList s
  let r2 := r1.dropWhile (· != '>')
  match r2 with
  | '>' :: r3 =>
    let cap := r3.takeWhile (· != '<')
    let r4 := r3.drop cap.length
    if ciIsPre "</title>".toList r4 then some cap else none
  | _ => none

/-- Matcher for the `<title>` regex at the current position. -/
def matchTitleAt : List Char → Option (List Char)
  | [] => none
  | ch :: rest => if ch = '<' then titleCore rest else none

/-- The lazy close of the meta regex `/<meta\s+([^>]+?)\/?>/gi`: accumulate
the shortest nonempty attribute text (which cannot contain `>`) up to a
closing `>` or `/>`; returns the attribute text and the input after the
`>`. -/
def lazyMetaClose (acc : List Char) : List Char → Option (List Char × List Char)
  | [] => none
  | ch :: rest =>
    if acc.isEmpty then
      if ch == '>' then none
      else lazyMetaClose [ch] rest
    else
      if ch == '>' then some (acc.reverse, rest)
      else
        match rest with
        | '>' :: rest2 =>
          if ch == '/' then some (acc.reverse, rest2)
          else lazyMetaClose (ch :: acc) rest
        | _ => lazyMetaClose (ch :: acc) rest

/-- The part of the meta regex after the initial `<`: the tag name, at least
one whitespace character, then the lazily-matched attribute text. -/
def metaCore (s : List Char) : Option (List Char × List Char) := do
  let r1 ← dropPre? "meta".toList s
  match r1 with
  | ch :: r2 => if isJsWs ch then lazyMetaClose [] (r2.dropWhile isJsWs) else none
  | [] => none

/-- Matcher for one `<meta …>` element at the current position. -/
def matchMetaAt : List Char → Option (List Char × List Char)
  | [] => none
  | ch :: rest => if ch = '<' then metaCore rest else none

/-- The leftmost `<meta …>` element of the input. -/
def findMetaFrom : List Char → Option (List Char × List Char) :=
  scanFor matchMetaAt

/-- The `\s*=\s*["']` glue of every attribute regex: optional whitespace, an
equals sign, optional whitespace and an opening quote; returns the input
after the quote. -/
def afterEqQuote (s : List Char) : Option (List Char) :=
  match s.dropWhile isJsWs with
  | '=' :: r2 =>
    match r2.dropWhile isJsWs with
    | q :: r4 => if isQuote q then some r4 else none
    | [] => none
  | _ => none

/-- The `([^"']*)["']` tail of a capturing attribute regex: the captured
value (possibly empty) and the input after the closing quote. -/
def quotedCap (s : List Char) : Option (List Char × List Char) :=
  let v := s.takeWhile (fun ch => !(isQuote ch))
  match s.drop v.length with
  | q :: r => if isQuote q then some (v, r) else none
  | [] => none

/-- Matcher for `/(?:property|name)\s*=\s*["']([^"']+)["']/i` at the current
position (nonempty capture). -/
def matchKeyAt (s : List Char) : Option (List Char) := do
  let r1 ← (dropPre? "property".toList s <|> dropPre? "name".toList s)
  let r2 ← afterEqQuote r1
  let vr ← quotedCap r2
  if vr.1.isEmpty then none else some vr.1

/-- Matcher for `attr\s*=\s*["']([^"']*)["']` (case-insensitive) at the
current position; returns the capture and the input after the closing
quote. -/
def matchAttrCapAt (attr : List Char) (s : List Char) : Option (List Char × List Char) := do
  let r1 ← dropPre? attr s
  let r2 ← afterEqQuote r1
  quotedCap r2

/-- Try each literal attribute value in turn, requiring a closing quote. -/
def litValClose : List (List Char) → List Char → Option (List Char)
  | [], _ => none
  | v :: vs, s =>
    match dropPre? v s with
    | some r =>
      (match r with
       | q :: r2 => if isQuote q then some r2 else litValClose vs s
       | [] => litValClose vs s)
    | none => litValClose vs s

/-- Matcher for `attr\s*=\s*["'](v1|v2|…)["']` (case-insensitive) at the
current position; returns the input after the closing quote. -/
def matchAttrLitAt (attr : List Char) (vals : List (List Char)) (s : List Char) :
    Option (List Char) := do
  let r1 ← dropPre? attr s
  let r2 ← afterEqQuote r1
  litValClose vals r2

/-- The `<tag\s` prefix and attribute segment common to the description,
canonical and favicon regexes: after `<` and the tag name there must be a
whitespace character, and the element's attribute text runs to the next `>`
(which must exist, closing the element). -/
def elemCore (word : List Char) (s : List Char) : Option (List Char) := do
  let r1 ← dropPre? word s
  match r1 with
  | ch :: r2 =>
    if isJsWs ch then
      let seg := r2.takeWhile (· != '>')
      match r2.drop seg.length with
      | '>' :: _ => some (ch :: seg)
      | _ => none
    else none
  | [] => none

/-- Matcher for a `<word …>` element at the current position, returning its
attribute text. -/
def elemSeg (word : List Char) : List Char → Option (List Char)
  | [] => none
  | ch :: rest => if ch = '<' then elemCore word rest else none

/-- Matcher for the literal `name="description"` attribute (either quote);
returns the input after the closing quote. -/
def matchNameDescAt : List Char → Option (List Char) :=
  matchAttrLitAt "name".toList ["description".toList]

/-- The meta-description fallback scan: a `<meta …>` element carrying
`name="description"` and `content="…"` in either attribute order (the two
alternative regexes of the source). -/
def descScan (cs : List Char) : Option (List Char) :=
  scanFor (fun s => do
    let seg ← elemSeg "meta".toList s
    let r ← scanFor matchNameDescAt seg
    let vr ← scanFor (matchAttrCapAt "content".toList) r
    pure vr.1) cs
  <|> scanFor (fun s => do
    let seg ← elemSeg "meta".toList s
    let vr ← scanFor (matchAttrCapAt "content".toList) seg
    let _ ← scanFor matchNameDescAt vr.2
    pure vr.1) cs

/-- The canonical-link scan: a `<link …>` element carrying
`rel="canonical"` and `href="…"` in either attribute order. -/
def canonicalScan (cs : List Char) : Option (List Char) :=
  scanFor (fun s => do
    let seg ← elemSeg "link".toList s
    let r ← scanFor (matchAttrLitAt "rel".toList ["canonical".toList]) seg
    let vr ← scanFor (matchAttrCapAt "href".toList) r
    pure vr.1) cs
  <|> scanFor (fun s => do
    let seg ← elemSeg "link".toList s
    let vr ← scanFor (matchAttrCapAt "href".toList) seg
    let _ ← scanFor (matchAttrLitAt "rel".toList ["canonical".toList]) vr.2
    pure vr.1) cs

/-- The favicon scan: a `<link …>` element with `rel="icon"` or
`rel="shortcut icon"` followed by `href="…"`. -/
def faviconScan (cs : List Char) : Option (List Char) :=
  scanFor (fun s => do
    let seg ← elemSeg "link".toList s
    let r ← scanFor (matchAttrLitAt "rel".toList ["icon".toList, "shortcut icon".toList]) seg
    let vr ← scanFor (matchAttrCapAt "href".toList) r
    pure vr.1) cs

/-- The `g`-regex `exec` loop over `<meta …>` elements: extract a key from
`property`/`name` and a value from `content`; store only when both are
found; continue after each match.  `fuel` bounds the iteration;
`s.length + 1` always suffices since every match consumes characters. -/
def metaLoop : Nat → List Char → MetadataMap → MetadataMap
  | 0, _, m => m
  | fuel + 1, s, m =>
    match findMetaFrom s with
    | none => m
    | some (attrs, rest) =>
      let m1 :=
        match scanFor matchKeyAt attrs, scanFor (matchAttrCapAt "content".toList) attrs with
        | some k, some vr => setTag m (String.mk (k.map asciiLower)) (decodeHtmlEntities (String.mk vr.1))
        | _, _ => m
      metaLoop fuel rest m1

/-- `parseHtml` from src/index.ts: the `<title>` scan, the meta-tag loop, the
description fallback, the canonical link and the favicon, in source order,
assembling the `OgTags` object. -/
def parseHtml (html : String) : MetadataMap :=
  let cs := html.toList
  let tagsT : MetadataMap :=
    match scanFor matchTitleAt cs with
    | some cap => [("title", decodeHtmlEntities (String.mk (trimJs cap)))]
    | none => []
  let tags1 := metaLoop (cs.length + 1) cs tagsT
  let tags2 :=
    match descScan cs with
    | some v => setTag tags1 "description" (decodeHtmlEntities (String.mk v))
    | none => tags1
  let tags3 :=
    match canonicalScan cs with
    | some v => setTag tags2 "canonical" (String.mk v)
    | none => tags2
  match faviconScan cs with
  | some v => setTag tags3 "favicon" (String.mk v)
  | none => tags3

/-! Concrete sanity checks of the decoder model. -/

example : decodeHtmlEntities "&amp;amp;" = "&amp;" := by decide
example : decodeHtmlEntities "&amp;lt;" = "<" := by decide
example : parseIntJS "abc" = none := by decide
example : parseIntJS "150" = some 150 := by decide
example : parseIntJS "  -42px" = some (-42) := by decide
example : parseIntJS "0x10" = some 16 := by decide
example : urlResolve "/local.png" "https://example.com/page" = "https://example.com/local.png" := by decide

/-! ## Helper lemmas about the validator blocks -/

/-- `isError` answers exactly "severity is error". -/
lemma isError_iff (i : Issue) : isError i = true ↔ i.severity = Severity.error := by
  cases i with
  | mk t p f s => cases s <;> simp [isError]

/-- Every issue of the `og:title` paragraph is tagged `og:title`. -/
lemma tagOf_ogTitleIssues {tags : MetadataMap} {i : Issue}
    (h : i ∈ ogTitleIssues tags) : i.tag = "og:title" := by
  unfold ogTitleIssues at h
  split at h
  · simp at h; subst h; rfl
  · split at h
    · simp at h; subst h; rfl
    · simp at h

/-- Every issue of the `og:description` paragraph is tagged
`og:description`. -/
lemma tagOf_ogDescriptionIssues {tags : MetadataMap} {i : Issue}
    (h : i ∈ ogDescriptionIssues tags) : i.tag = "og:description" := by
  unfold ogDescriptionIssues at h
  split at h
  · simp at h; subst h; rfl
  · split at h
    · simp at h; subst h; rfl
    · simp at h

/-- Every issue of the `og:image` paragraph carries one of its three tags. -/
lemma tagOf_ogImageIssues {tags : MetadataMap} {url : String} {i : Issue}
    (h : i ∈ ogImageIssues tags url) :
    i.tag = "og:image" ∨ i.tag = "og:image:width/height" ∨ i.tag = "og:image:alt" := by
  unfold ogImageIssues at h
  split at h
  · simp at h; subst h; left; rfl
  · rcases List.mem_append.mp h with h1 | h1
    · rcases List.mem_append.mp h1 with h2 | h2
      · split at h2
        · simp at h2; subst h2; left; rfl
        · simp at h2
      · split at h2
        · simp at h2; subst h2; right; left; rfl
        · by_cases hc : (jsLtNum (parseIntJS ((getTag tags "og:image:width").getD "")) 200
              || jsLtNum (parseIntJS ((getTag tags "og:image:height").getD "")) 200) = true
          · simp only [hc, if_pos] at h2
            simp at h2; subst h2; left; rfl
          · simp only [Bool.not_eq_true] at hc
            simp only [hc, if_neg, Bool.false_eq_true] at h2
            simp at h2
    · split at h1
      · simp at h1; subst h1; right; right; rfl
      · simp at h1

/-- Every issue of the `og:url` rule is tagged `og:url`. -/
lemma tagOf_ogUrlIssues {tags : MetadataMap} {url : String} {i : Issue}
    (h : i ∈ ogUrlIssues tags url) : i.tag = "og:url" := by
  unfold ogUrlIssues at h
  split at h
  · simp at h; subst h; rfl
  · simp at h

/-- Every issue of the `og:type` rule is tagged `og:type`. -/
lemma tagOf_ogTypeIssues {tags : MetadataMap} {i : Issue}
    (h : i ∈ ogTypeIssues tags) : i.tag = "og:type" := by
  unfold ogTypeIssues at h
  split at h
  · simp at h; subst h; rfl
  · simp at h

/-- Every issue of the `twitter:card` rule is tagged `twitter:card`. -/
lemma tagOf_twitterCardIssues {tags : MetadataMap} {i : Issue}
    (h : i ∈ twitterCardIssues tags) : i.tag = "twitter:card" := by
  unfold twitterCardIssues at h
  split at h
  · simp at h; subst h; rfl
  · simp at h

/-- Every issue of the `twitter:title` rule is tagged `twitter:title`. -/
lemma tagOf_twitterTitleIssues {tags : MetadataMap} {i : Issue}
    (h : i ∈ twitterTitleIssues tags) : i.tag = "twitter:title" := by
  unfold twitterTitleIssues at h
  split at h
  · simp at h; subst h; rfl
  · simp at h

/-- Every issue of the `twitter:image` rule is tagged `twitter:image`. -/
lemma tagOf_twitterImageIssues {tags : MetadataMap} {i : Issue}
    (h : i ∈ twitterImageIssues tags) : i.tag = "twitter:image" := by
  unfold twitterImageIssues at h
  split at h
  · simp at h; subst h; rfl
  · simp at h

/-- Every issue of the `<title>` rule is tagged `title`. -/
lemma tagOf_titleIssues {tags : MetadataMap} {i : Issue}
    (h : i ∈ titleIssues tags) : i.tag = "title" := by
  unfold titleIssues at h
  split at h
  · simp at h; subst h; rfl
  · simp at h

/-- Every issue of the meta-description rule is tagged `description`. -/
lemma tagOf_descriptionIssues {tags : MetadataMap} {i : Issue}
    (h : i ∈ descriptionIssues tags) : i.tag = "description" := by
  unfold descriptionIssues at h
  split at h
  · simp at h; subst h; rfl
  · simp at h

/-- Every issue of the canonical rule is tagged `canonical`. -/
lemma tagOf_canonicalIssues {tags : MetadataMap} {url : String} {i : Issue}
    (h : i ∈ canonicalIssues tags url) : i.tag = "canonical" := by
  unfold canonicalIssues at h
  split at h
  · simp at h; subst h; rfl
  · simp at h

/-! ## Claim C2: validity and CI exit code -/

/-- C2: overall validity equals the absence of error-severity issues: the
JSON `valid` field is true iff no issue has severity error, and in `--ci`
mode the exit code is 1 iff some issue has severity error and 0 iff none
has (warnings and info issues do not matter). -/
theorem C2_valid_iff_no_error (issues : List Issue) :
    (jsonValid issues = true ↔ ∀ i ∈ issues, i.severity ≠ Severity.error) ∧
    (ciExitCode true issues = 1 ↔ ∃ i ∈ issues, i.severity = Severity.error) ∧
    (ciExitCode true issues = 0 ↔ ∀ i ∈ issues, i.severity ≠ Severity.error) := by
  refine ⟨?_, ?_, ?_⟩
  · simp only [jsonValid, beq_iff_eq, List.length_eq_zero, List.filter_eq_nil_iff]
    constructor
    · intro hf i hi he
      exact hf i hi ((isError_iff i).mpr he)
    · intro hf i hi he
      exact hf i hi ((isError_iff i).mp he)
  · simp only [ciExitCode, Bool.true_and]
    constructor
    · intro h1
      by_cases ha : issues.any isError = true
      · obtain ⟨i, hi, he⟩ := List.any_eq_true.mp ha
        exact ⟨i, hi, (isError_iff i).mp he⟩
      · simp [ha] at h1
    · rintro ⟨i, hi, he⟩
      have : issues.any isError = true := List.any_eq_true.mpr ⟨i, hi, (isError_iff i).mpr he⟩
      simp [this]
  · simp only [ciExitCode, Bool.true_and]
    constructor
    · intro h0 i hi he
      have : issues.any isError = true := List.any_eq_true.mpr ⟨i, hi, (isError_iff i).mpr he⟩
      simp [this] at h0
    · intro hf
      have : issues.any isError = false := by
        by_contra hne
        have ha : issues.any isError = true := by
          cases h : issues.any isError
          · exact absurd h hne
          · rfl
        obtain ⟨i, hi, he⟩ := List.any_eq_true.mp ha
        exact hf i hi ((isError_iff i).mp he)
      simp [this]

/-! ## Claim C7: decoding the double-encoded ampersand -/

/-- C7: `decodeHtmlEntities "&amp;amp;"` yields `"&amp;"` — the `&amp;`
replacement runs first and does not rescan its own output, and no later
replacement touches the result. -/
theorem C7_decode_double_amp : decodeHtmlEntities "&amp;amp;" = "&amp;" := by decide

/-! ## Claim C8: double-encoded entities other than `&amp;` -/

/-- C8 counterexample: the claim "for every supported entity, decoding the
double-encoded form yields the once-decoded form, not the literal character"
fails at `&lt;`: `decodeHtmlEntities "&amp;lt;"` is `"<"`, not `"&lt;"`,
because the `&amp;` replacement runs before the `&lt;` replacement. -/
theorem C8_counterexample :
    decodeHtmlEntities "&amp;lt;" = "<" ∧ decodeHtmlEntities "&amp;lt;" ≠ "&lt;" := by decide

/-- C8 amended: decoding is single-pass only for the ampersand entity
itself (`&amp;amp;` gives `&amp;`); for each of the seven other supported
entities the double-encoded form IS fully resolved to the literal character,
because the `&amp;` replacement runs first and the entity's own replacement
then fires on its output. -/
theorem C8_amended_double_encoded_resolved :
    decodeHtmlEntities "&amp;amp;" = "&amp;" ∧
    decodeHtmlEntities "&amp;lt;" = "<" ∧
    decodeHtmlEntities "&amp;gt;" = ">" ∧
    decodeHtmlEntities "&amp;quot;" = "\"" ∧
    decodeHtmlEntities "&amp;#39;" = "\x27" ∧
    decodeHtmlEntities "&amp;#x27;" = "\x27" ∧
    decodeHtmlEntities "&amp;#x2F;" = "/" ∧
    decodeHtmlEntities "&amp;nbsp;" = " " := by decide

/-! ## Claim C10: a bare `--flag` consumes a following URL -/

/-- C10: for `argv = ["--json", U]` with `U` not starting with `-`, the
parser stores `U` as the string value of option `json`, records no
positional `_url`, and `main` therefore reports a usage error and exits 1
even though a URL was supplied. -/
theorem C10_json_flag_swallows_url (U : String) (hU : jsStarts U "-" = false) :
    parseArgs ["--json", U] = [("json", ArgVal.str U)] ∧
    getKV (parseArgs ["--json", U]) "_url" = (none : Option ArgVal) ∧
    mainEarlyExit (parseArgs ["--json", U]) = some 1 := by
  have hjj : jsStarts "--json" "--" = true := by decide
  have hne : ("--json".toList.contains '=') = false := by decide
  have hjs : String.mk ("--json".toList.drop 2) = "json" := by decide
  have h1 : parseArgs ["--json", U] = [("json", ArgVal.str U)] := by
    unfold parseArgs
    rw [parseArgsLoop]
    simp only [hjj, if_true, hne, Bool.false_eq_true, if_false, hU, Bool.not_false,
      if_pos, hjs]
    rw [parseArgsLoop]
    simp [setKV]
  have hfind : (("json" : String) == "_url") = false := by decide
  refine ⟨h1, ?_, ?_⟩
  · rw [h1]
    simp [getKV, List.find?, hfind]
  · rw [h1]
    have hhelp : (("json" : String) == "help") = false := by decide
    simp [mainEarlyExit, getKV, List.find?, hfind, hhelp, truthyArg]

/-- C10 witness at `U = "https://example.com"`. -/
theorem C10_json_flag_swallows_url_witness :
    jsStarts "https://example.com" "-" = false ∧
    (parseArgs ["--json", "https://example.com"] =
        [("json", ArgVal.str "https://example.com")] ∧
      getKV (parseArgs ["--json", "https://example.com"]) "_url" = (none : Option ArgVal) ∧
      mainEarlyExit (parseArgs ["--json", "https://example.com"]) = some 1) :=
  ⟨by decide, C10_json_flag_swallows_url "https://example.com" (by decide)⟩

/-! ## Claim C5: the redirect cap is exactly 5 hops -/

/-- An absolute `http…` location is nonempty. -/
lemma bne_empty_of_jsStarts_http (l : String) (h : jsStarts l "http" = true) :
    (l != "") = true := by
  by_cases he : l = ""
  · subst he
    simp [jsStarts] at h
  · simp [bne_iff_ne]
    exact he

/-- A `mkRedirectResp` with an absolute `http…` location passes the
redirect test. -/
lemma isRedirectResp_mkRedirect (l : String) (h : jsStarts l "http" = true) :
    isRedirectResp (mkRedirectResp l) = true := by
  simp [isRedirectResp, mkRedirectResp, bne_empty_of_jsStarts_http l h]

/-- The location of a `mkRedirectResp`. -/
lemma location_mkRedirect (l : String) : (mkRedirectResp l).location = some l := rfl

/-- One step of `doFetch` across a redirect response with an absolute
`http…` location: the counter grows and the location becomes the URL. -/
lemma doFetch_step (loc : String) (chain : List HttpResponse) (u : String) (n : Nat)
    (hl : jsStarts loc "http" = true) (hn5 : ¬ n > 5) :
    doFetch (mkRedirectResp loc :: chain) u n = doFetch chain loc (n + 1) := by
  rw [doFetch.eq_def, if_neg hn5]
  dsimp only
  rw [if_pos (isRedirectResp_mkRedirect loc hl)]
  simp [location_mkRedirect, hl]

/-- If the redirect counter would pass 5 within a chain of redirect
responses, `doFetch` fails with "Too many redirects". -/
lemma doFetch_over (locs : List String) :
    ∀ (rest : List HttpResponse) (u : String) (n : Nat),
      (∀ l ∈ locs, jsStarts l "http" = true) → n ≤ 5 → 5 < n + locs.length →
      doFetch (locs.map mkRedirectResp ++ rest) u n = Except.error "Too many redirects" := by
  induction locs with
  | nil =>
    intro rest u n _ hn hover
    simp at hover
    omega
  | cons loc locs ih =>
    intro rest u n habs hn hover
    have hl : jsStarts loc "http" = true := habs loc (by simp)
    have hn5 : ¬ n > 5 := by omega
    rw [List.map_cons, List.cons_append, doFetch_step loc _ u n hl hn5]
    by_cases h6 : n + 1 > 5
    · rw [doFetch.eq_def]
      simp [h6]
    · exact ih rest loc (n + 1) (fun l hl2 => habs l (by simp [hl2])) (by omega)
        (by simp at hover; omega)

/-- A chain of redirect responses within the cap followed by a non-redirect
response succeeds, and the final hop's URL becomes `finalUrl`. -/
lemma doFetch_chain_ok (locs : List String) :
    ∀ (u body : String) (n : Nat),
      (∀ l ∈ locs, jsStarts l "http" = true) → n + locs.length ≤ 5 →
      doFetch (locs.map mkRedirectResp ++ [mkOkResp body]) u n =
        Except.ok ⟨200, body, locs.getLastD u⟩ := by
  induction locs with
  | nil =>
    intro u body n _ hn
    rw [doFetch.eq_def]
    have hn5 : ¬ n > 5 := by omega
    simp [hn5, isRedirectResp, mkOkResp]
  | cons loc locs ih =>
    intro u body n habs hn
    have hl : jsStarts loc "http" = true := habs loc (by simp)
    have hn5 : ¬ n > 5 := by omega
    rw [List.map_cons, List.cons_append, doFetch_step loc _ u n hl hn5, List.getLastD_cons]
    exact ih loc body (n + 1) (fun l hl2 => habs l (by simp [hl2])) (by simp at hn; omega)

/-- C5: the redirect cap is exactly 5 hops.  A chain of 6 redirect
responses (whatever follows) fails the fetch with "Too many redirects"; a
chain of at most 5 redirects followed by a 200 response succeeds and returns
the URL of the final hop as `finalUrl`. -/
theorem C5_redirect_cap (locs : List String) (u body : String)
    (habs : ∀ l ∈ locs, jsStarts l "http" = true) :
    (locs.length = 6 → ∀ rest, fetchUrlModel (locs.map mkRedirectResp ++ rest) u =
        Except.error "Too many redirects") ∧
    (locs.length ≤ 5 → fetchUrlModel (locs.map mkRedirectResp ++ [mkOkResp body]) u =
        Except.ok ⟨200, body, locs.getLastD u⟩) := by
  constructor
  · intro h6 rest
    exact doFetch_over locs rest u 0 habs (by omega) (by omega)
  · intro h5
    exact doFetch_chain_ok locs u body 0 habs (by omega)

/-- C5 witness: a concrete chain of 6 redirects fails; a concrete chain of
2 redirects then a 200 succeeds with the last hop as the final URL. -/
theorem C5_redirect_cap_witness :
    (∀ l ∈ ["http://h/1", "http://h/2", "http://h/3", "http://h/4", "http://h/5", "http://h/6"],
        jsStarts l "http" = true) ∧
    fetchUrlModel
        (["http://h/1", "http://h/2", "http://h/3", "http://h/4", "http://h/5",
            "http://h/6"].map mkRedirectResp ++ [mkOkResp "B"]) "http://start" =
      Except.error "Too many redirects" ∧
    fetchUrlModel (["http://h/1", "http://h/2"].map mkRedirectResp ++ [mkOkResp "B"]) "http://start" =
      Except.ok ⟨200, "B", "http://h/2"⟩ :=
  ⟨by decide,
   (C5_redirect_cap ["http://h/1", "http://h/2", "http://h/3", "http://h/4", "http://h/5",
      "http://h/6"] "http://start" "B" (by decide)).1 (by decide) [mkOkResp "B"],
   (C5_redirect_cap ["http://h/1", "http://h/2"] "http://start" "B" (by decide)).2 (by decide)⟩

/-! ## Claim C3: the missing `og:title` issue -/

/-- Membership in the validator's output, flattened into the eleven rule
paragraphs. -/
lemma mem_validateTags {tags : MetadataMap} {url : String} {i : Issue} :
    i ∈ validateTags tags url ↔
      i ∈ ogTitleIssues tags ∨ i ∈ ogDescriptionIssues tags ∨ i ∈ ogImageIssues tags url ∨
      i ∈ ogUrlIssues tags url ∨ i ∈ ogTypeIssues tags ∨ i ∈ twitterCardIssues tags ∨
      i ∈ twitterTitleIssues tags ∨ i ∈ twitterImageIssues tags ∨ i ∈ titleIssues tags ∨
      i ∈ descriptionIssues tags ∨ i ∈ canonicalIssues tags url := by
  unfold validateTags
  simp [List.mem_append, or_assoc]

/-- A list of issues none of which is tagged `t` filters to nothing. -/
lemma filter_tag_nil {l : List Issue} {t : String} (hl : ∀ j ∈ l, j.tag ≠ t) :
    l.filter (fun i => i.tag == t) = [] := by
  apply List.filter_eq_nil_iff.mpr
  intro i hi
  simp only [beq_iff_eq]
  exact hl i hi

/-- C3: for every MetadataMap lacking the key `og:title`, the validator's
output contains exactly one issue tagged `og:title`; it has severity error
and its fix embeds the map's `title` value when that key is present,
otherwise the placeholder "Your Page Title". -/
theorem C3_missing_og_title (tags : MetadataMap) (url : String)
    (h : getTag tags "og:title" = none) :
    ((validateTags tags url).filter (fun i => i.tag == "og:title")).length = 1 ∧
    ∀ i ∈ validateTags tags url, i.tag = "og:title" →
      i.severity = Severity.error ∧
      (match getTag tags "title" with
       | some t => ∃ pre suf : String, i.fix = pre ++ t ++ suf
       | none => ∃ pre suf : String, i.fix = pre ++ "Your Page Title" ++ suf) := by
  have htr : truthy tags "og:title" = false := by simp [truthy, h]
  have hblock : ogTitleIssues tags =
      [{ tag := "og:title",
         problem := "Missing og:title. Social platforms won\x27t show a proper title for your link.",
         fix := "<meta property=\"og:title\" content=\"" ++ jsOrStr (getTag tags "title") "Your Page Title" ++ "\" />",
         severity := Severity.error }] := by
    unfold ogTitleIssues
    rw [htr]
    simp
  have n2 := filter_tag_nil (t := "og:title") (l := ogDescriptionIssues tags)
    (fun j hj => by rw [tagOf_ogDescriptionIssues hj]; decide)
  have n3 := filter_tag_nil (t := "og:title") (l := ogImageIssues tags url)
    (fun j hj => by rcases tagOf_ogImageIssues hj with ht | ht | ht <;> rw [ht] <;> decide)
  have n4 := filter_tag_nil (t := "og:title") (l := ogUrlIssues tags url)
    (fun j hj => by rw [tagOf_ogUrlIssues hj]; decide)
  have n5 := filter_tag_nil (t := "og:title") (l := ogTypeIssues tags)
    (fun j hj => by rw [tagOf_ogTypeIssues hj]; decide)
  have n6 := filter_tag_nil (t := "og:title") (l := twitterCardIssues tags)
    (fun j hj => by rw [tagOf_twitterCardIssues hj]; decide)
  have n7 := filter_tag_nil (t := "og:title") (l := twitterTitleIssues tags)
    (fun j hj => by rw [tagOf_twitterTitleIssues hj]; decide)
  have n8 := filter_tag_nil (t := "og:title") (l := twitterImageIssues tags)
    (fun j hj => by rw [tagOf_twitterImageIssues hj]; decide)
  have n9 := filter_tag_nil (t := "og:title") (l := titleIssues tags)
    (fun j hj => by rw [tagOf_titleIssues hj]; decide)
  have n10 := filter_tag_nil (t := "og:title") (l := descriptionIssues tags)
    (fun j hj => by rw [tagOf_descriptionIssues hj]; decide)
  have n11 := filter_tag_nil (t := "og:title") (l := canonicalIssues tags url)
    (fun j hj => by rw [tagOf_canonicalIssues hj]; decide)
  constructor
  · unfold validateTags
    simp only [List.filter_append, n2, n3, n4, n5, n6, n7, n8, n9, n10, n11,
      List.append_nil, hblock]
    have htt : (("og:title" : String) == "og:title") = true := by decide
    simp [List.filter, htt]
  · intro i hi htag
    rcases mem_validateTags.mp hi with h1 | h1 | h1 | h1 | h1 | h1 | h1 | h1 | h1 | h1 | h1
    · rw [hblock] at h1
      simp at h1
      subst h1
      refine ⟨rfl, ?_⟩
      cases hT : getTag tags "title" with
      | none =>
        dsimp only
        exact ⟨"<meta property=\"og:title\" content=\"", "\" />", by simp [jsOrStr]⟩
      | some t =>
        dsimp only
        by_cases ht0 : t = ""
        · subst ht0
          refine ⟨"", "<meta property=\"og:title\" content=\"" ++ "Your Page Title" ++ "\" />", ?_⟩
          simp [jsOrStr]
        · exact ⟨"<meta property=\"og:title\" content=\"", "\" />", by simp [jsOrStr, ht0]⟩
    · have ht2 := tagOf_ogDescriptionIssues h1
      rw [htag] at ht2
      exact absurd ht2 (by decide)
    · rcases tagOf_ogImageIssues h1 with ht2 | ht2 | ht2 <;> rw [htag] at ht2 <;>
        exact absurd ht2 (by decide)
    · have ht2 := tagOf_ogUrlIssues h1
      rw [htag] at ht2
      exact absurd ht2 (by decide)
    · have ht2 := tagOf_ogTypeIssues h1
      rw [htag] at ht2
      exact absurd ht2 (by decide)
    · have ht2 := tagOf_twitterCardIssues h1
      rw [htag] at ht2
      exact absurd ht2 (by decide)
    · have ht2 := tagOf_twitterTitleIssues h1
      rw [htag] at ht2
      exact absurd ht2 (by decide)
    · have ht2 := tagOf_twitterImageIssues h1
      rw [htag] at ht2
      exact absurd ht2 (by decide)
    · have ht2 := tagOf_titleIssues h1
      rw [htag] at ht2
      exact absurd ht2 (by decide)
    · have ht2 := tagOf_descriptionIssues h1
      rw [htag] at ht2
      exact absurd ht2 (by decide)
    · have ht2 := tagOf_canonicalIssues h1
      rw [htag] at ht2
      exact absurd ht2 (by decide)

/-- C3 witness at a concrete map carrying only a plain `title`. -/
theorem C3_missing_og_title_witness :
    getTag [("title", "My Page")] "og:title" = none ∧
    (((validateTags [("title", "My Page")] "https://e.com").filter
        (fun i => i.tag == "og:title")).length = 1 ∧
      ∀ i ∈ validateTags [("title", "My Page")] "https://e.com", i.tag = "og:title" →
        i.severity = Severity.error ∧
        (match getTag [("title", "My Page")] "title" with
         | some t => ∃ pre suf : String, i.fix = pre ++ t ++ suf
         | none => ∃ pre suf : String, i.fix = pre ++ "Your Page Title" ++ suf)) :=
  ⟨by decide, C3_missing_og_title [("title", "My Page")] "https://e.com" (by decide)⟩

/-! ## Claim C4: the og:title length boundary is at > 95 -/

/-- C4: with `og:title` present, a value of length 96 produces the length
warning (an `og:title`-tagged warning issue), while a value of length at
most 95 produces no `og:title`-tagged warning at all. -/
theorem C4_title_length_boundary (tags : MetadataMap) (url : String) (t : String)
    (h : getTag tags "og:title" = some t) :
    (t.length = 96 →
      ∃ i ∈ validateTags tags url, i.tag = "og:title" ∧ i.severity = Severity.warning) ∧
    (t.length ≤ 95 →
      ∀ i ∈ validateTags tags url, ¬(i.tag = "og:title" ∧ i.severity = Severity.warning)) := by
  constructor
  · intro h96
    have ht0 : t ≠ "" := by
      intro he
      rw [he] at h96
      simp at h96
    have htr : truthy tags "og:title" = true := by simp [truthy, h, ht0]
    have hgd : (getTag tags "og:title").getD "" = t := by rw [h]; rfl
    have hlen : ((getTag tags "og:title").getD "").length > 95 := by rw [hgd]; omega
    refine ⟨⟨"og:title",
        "og:title is " ++ toString ((getTag tags "og:title").getD "").length ++
          " chars. It\x27ll get truncated on most platforms (keep under 60-95 chars).",
        "Shorten your og:title to under 60 characters for best display.",
        Severity.warning⟩, ?_, rfl, rfl⟩
    apply mem_validateTags.mpr
    left
    unfold ogTitleIssues
    rw [htr]
    simp [hlen]
  · intro h95 i hi hcontra
    obtain ⟨htag, hsev⟩ := hcontra
    rcases mem_validateTags.mp hi with h1 | h1 | h1 | h1 | h1 | h1 | h1 | h1 | h1 | h1 | h1
    · unfold ogTitleIssues at h1
      by_cases ht0 : t = ""
      · have htr : truthy tags "og:title" = false := by simp [truthy, h, ht0]
        rw [htr] at h1
        simp at h1
        rw [h1] at hsev
        simp at hsev
      · have htr : truthy tags "og:title" = true := by simp [truthy, h, ht0]
        have hgd : (getTag tags "og:title").getD "" = t := by rw [h]; rfl
        have hlen : ¬ ((getTag tags "og:title").getD "").length > 95 := by rw [hgd]; omega
        rw [htr] at h1
        simp only [Bool.not_true, Bool.false_eq_true, if_false, hlen, if_neg] at h1
        simp at h1
    · have ht2 := tagOf_ogDescriptionIssues h1
      rw [htag] at ht2
      exact absurd ht2 (by decide)
    · rcases tagOf_ogImageIssues h1 with ht2 | ht2 | ht2 <;> rw [htag] at ht2 <;>
        exact absurd ht2 (by decide)
    · have ht2 := tagOf_ogUrlIssues h1
      rw [htag] at ht2
      exact absurd ht2 (by decide)
    · have ht2 := tagOf_ogTypeIssues h1
      rw [htag] at ht2
      exact absurd ht2 (by decide)
    · have ht2 := tagOf_twitterCardIssues h1
      rw [htag] at ht2
      exact absurd ht2 (by decide)
    · have ht2 := tagOf_twitterTitleIssues h1
      rw [htag] at ht2
      exact absurd ht2 (by decide)
    · have ht2 := tagOf_twitterImageIssues h1
      rw [htag] at ht2
      exact absurd ht2 (by decide)
    · have ht2 := tagOf_titleIssues h1
      rw [htag] at ht2
      exact absurd ht2 (by decide)
    · have ht2 := tagOf_descriptionIssues h1
      rw [htag] at ht2
      exact absurd ht2 (by decide)
    · have ht2 := tagOf_canonicalIssues h1
      rw [htag] at ht2
      exact absurd ht2 (by decide)

/-- C4 witness at a concrete 96-character og:title. -/
theorem C4_title_length_boundary_witness :
    getTag [("og:title", String.mk (List.replicate 96 'a'))] "og:title" =
      some (String.mk (List.replicate 96 'a')) ∧
    (((String.mk (List.replicate 96 'a')).length = 96 →
        ∃ i ∈ validateTags [("og:title", String.mk (List.replicate 96 'a'))] "https://e.com",
          i.tag = "og:title" ∧ i.severity = Severity.warning) ∧
      ((String.mk (List.replicate 96 'a')).length ≤ 95 →
        ∀ i ∈ validateTags [("og:title", String.mk (List.replicate 96 'a'))] "https://e.com",
          ¬(i.tag = "og:title" ∧ i.severity = Severity.warning))) :=
  ⟨by decide,
   C4_title_length_boundary [("og:title", String.mk (List.replicate 96 'a'))] "https://e.com"
     (String.mk (List.replicate 96 'a')) (by decide)⟩

/-! ## Claim C6: relative og:image on https://example.com/page -/

/-- C6: when `og:image` is the relative value `/local.png` and the page URL
is `https://example.com/page`, the validator emits an error-severity
`og:image` issue whose fix contains the resolved absolute URL
`https://example.com/local.png`. -/
theorem C6_relative_image_fix (tags : MetadataMap)
    (h : getTag tags "og:image" = some "/local.png") :
    ∃ i ∈ validateTags tags "https://example.com/page",
      i.tag = "og:image" ∧ i.severity = Severity.error ∧
      ∃ pre suf : String, i.fix = pre ++ "https://example.com/local.png" ++ suf := by
  have htr : truthy tags "og:image" = true := by simp [truthy, h]
  have hgd : (getTag tags "og:image").getD "" = "/local.png" := by rw [h]; rfl
  have hst : jsStarts ((getTag tags "og:image").getD "") "http" = false := by
    rw [hgd]; decide
  have hres : urlResolve ((getTag tags "og:image").getD "") "https://example.com/page" =
      "https://example.com/local.png" := by
    rw [hgd]; decide
  refine ⟨⟨"og:image",
      "og:image should be an absolute URL (starting with https://). Relative URLs won\x27t work.",
      "<meta property=\"og:image\" content=\"" ++
        urlResolve ((getTag tags "og:image").getD "") "https://example.com/page" ++ "\" />",
      Severity.error⟩, ?_, rfl, rfl, ?_⟩
  · apply mem_validateTags.mpr
    right; right; left
    unfold ogImageIssues
    rw [htr]
    simp only [Bool.not_true, Bool.false_eq_true, if_false, hst, Bool.not_false, if_true]
    apply List.mem_append_left
    apply List.mem_append_left
    simp
  · refine ⟨"<meta property=\"og:image\" content=\"", "\" />", ?_⟩
    rw [hres]

/-- C6 witness at the concrete one-entry map. -/
theorem C6_relative_image_fix_witness :
    getTag [("og:image", "/local.png")] "og:image" = some "/local.png" ∧
    ∃ i ∈ validateTags [("og:image", "/local.png")] "https://example.com/page",
      i.tag = "og:image" ∧ i.severity = Severity.error ∧
      ∃ pre suf : String, i.fix = pre ++ "https://example.com/local.png" ++ suf :=
  ⟨by decide, C6_relative_image_fix [("og:image", "/local.png")] (by decide)⟩

/-! ## Claim C1: non-numeric og:image dimensions -/

/-- C1 counterexample: with `og:image` present and absolute, and both
dimensions set to non-numeric strings, decimal parsing fails for both
(`parseInt` gives `NaN`), and the sub-200-dimension warning is NOT produced:
`NaN < 200` is false in JS, so the claim that parse failure is "effectively
treated as satisfying < 200" is refuted. -/
theorem C1_counterexample :
    parseIntJS "abc" = none ∧ parseIntJS "def" = none ∧
    ((validateTags [("og:image", "https://a/b.png"), ("og:image:width", "abc"),
        ("og:image:height", "def")] "https://a/").any
      (fun i => i.tag == "og:image" && decide (i.severity = Severity.warning))) = false := by
  decide

/-- C1 amended: with `og:image`, `og:image:width` and `og:image:height` all
present (truthy), the sub-200-dimension warning (the only warning-severity
issue tagged `og:image`) is produced iff `parseInt(width) < 200` or
`parseInt(height) < 200` under JS comparison semantics, where a failed parse
yields `NaN` and every comparison with `NaN` is false — so a pair of
non-numeric dimensions produces NO warning. -/
theorem C1_amended_nan_dims (tags : MetadataMap) (url : String) (w h : String)
    (himg : truthy tags "og:image" = true)
    (hw : getTag tags "og:image:width" = some w) (hw0 : w ≠ "")
    (hh : getTag tags "og:image:height" = some h) (hh0 : h ≠ "") :
    (∃ i ∈ validateTags tags url, i.tag = "og:image" ∧ i.severity = Severity.warning) ↔
      (jsLtNum (parseIntJS w) 200 || jsLtNum (parseIntJS h) 200) = true := by
  have htw : truthy tags "og:image:width" = true := by simp [truthy, hw, hw0]
  have hth : truthy tags "og:image:height" = true := by simp [truthy, hh, hh0]
  have hgw : (getTag tags "og:image:width").getD "" = w := by rw [hw]; rfl
  have hgh : (getTag tags "og:image:height").getD "" = h := by rw [hh]; rfl
  constructor
  · rintro ⟨i, hi, htag, hsev⟩
    rcases mem_validateTags.mp hi with h1 | h1 | h1 | h1 | h1 | h1 | h1 | h1 | h1 | h1 | h1
    · have ht2 := tagOf_ogTitleIssues h1
      rw [htag] at ht2
      exact absurd ht2 (by decide)
    · have ht2 := tagOf_ogDescriptionIssues h1
      rw [htag] at ht2
      exact absurd ht2 (by decide)
    · unfold ogImageIssues at h1
      rw [himg] at h1
      simp only [Bool.not_true, Bool.false_eq_true, if_false, htw, hth, Bool.or_self,
        hgw, hgh] at h1
      rcases List.mem_append.mp h1 with h2 | h2
      · rcases List.mem_append.mp h2 with h3 | h3
        · split at h3
          · simp at h3
            rw [h3] at hsev
            simp at hsev
          · simp at h3
        · by_cases hc : (jsLtNum (parseIntJS w) 200 || jsLtNum (parseIntJS h) 200) = true
          · exact hc
          · simp only [Bool.not_eq_true] at hc
            simp only [hc, Bool.false_eq_true, if_neg, if_false] at h3
            simp at h3
      · split at h2
        · simp at h2
          rw [h2] at htag
          exact absurd htag (by decide)
        · simp at h2
    · have ht2 := tagOf_ogUrlIssues h1
      rw [htag] at ht2
      exact absurd ht2 (by decide)
    · have ht2 := tagOf_ogTypeIssues h1
      rw [htag] at ht2
      exact absurd ht2 (by decide)
    · have ht2 := tagOf_twitterCardIssues h1
      rw [htag] at ht2
      exact absurd ht2 (by decide)
    · have ht2 := tagOf_twitterTitleIssues h1
      rw [htag] at ht2
      exact absurd ht2 (by decide)
    · have ht2 := tagOf_twitterImageIssues h1
      rw [htag] at ht2
      exact absurd ht2 (by decide)
    · have ht2 := tagOf_titleIssues h1
      rw [htag] at ht2
      exact absurd ht2 (by decide)
    · have ht2 := tagOf_descriptionIssues h1
      rw [htag] at ht2
      exact absurd ht2 (by decide)
    · have ht2 := tagOf_canonicalIssues h1
      rw [htag] at ht2
      exact absurd ht2 (by decide)
  · intro hc
    refine ⟨⟨"og:image",
        "Image is " ++ showJsNum (parseIntJS w) ++ "x" ++ showJsNum (parseIntJS h) ++
          "px. Most platforms need at least 200x200px. Facebook recommends 1200x630px.",
        "Use an image that\x27s at least 1200x630px for best results.",
        Severity.warning⟩, ?_, rfl, rfl⟩
    apply mem_validateTags.mpr
    right; right; left
    unfold ogImageIssues
    rw [himg]
    simp only [Bool.not_true, Bool.false_eq_true, if_false, htw, hth, Bool.or_self,
      hgw, hgh]
    apply List.mem_append_left
    apply List.mem_append_right
    rw [if_pos hc]
    simp

/-- C1 amended witness at concrete dimensions 150x300 (the 150 triggers the
warning). -/
theorem C1_amended_nan_dims_witness :
    truthy [("og:image", "https://a/b.png"), ("og:image:width", "150"),
        ("og:image:height", "300")] "og:image" = true ∧
    getTag [("og:image", "https://a/b.png"), ("og:image:width", "150"),
        ("og:image:height", "300")] "og:image:width" = some "150" ∧
    ("150" : String) ≠ "" ∧
    getTag [("og:image", "https://a/b.png"), ("og:image:width", "150"),
        ("og:image:height", "300")] "og:image:height" = some "300" ∧
    ("300" : String) ≠ "" ∧
    ((∃ i ∈ validateTags [("og:image", "https://a/b.png"), ("og:image:width", "150"),
          ("og:image:height", "300")] "https://a/", i.tag = "og:image" ∧
          i.severity = Severity.warning) ↔
      (jsLtNum (parseIntJS "150") 200 || jsLtNum (parseIntJS "300") 200) = true) :=
  ⟨by decide, by decide, by decide, by decide, by decide,
   C1_amended_nan_dims [("og:image", "https://a/b.png"), ("og:image:width", "150"),
       ("og:image:height", "300")] "https://a/" "150" "300"
     (by decide) (by decide) (by decide) (by decide) (by decide)⟩

/-! ## Claim C9: the extractor is total and absence means a missing key -/

/-- A scan returns nothing when the matcher rejects every position; the
matchers of `parseHtml` all require a literal `<` at the match position. -/
lemma scanFor_eq_none {α : Type} (f : List Char → Option α) (s : List Char)
    (hf : ∀ ch t, ch ≠ '<' → f (ch :: t) = none)
    (hs : ∀ ch ∈ s, ch ≠ '<') : scanFor f s = none := by
  induction s with
  | nil => rfl
  | cons ch cs ih =>
    have h1 : f (ch :: cs) = none := hf ch cs (hs ch (by simp))
    rw [scanFor, h1]
    exact ih (fun c hc => hs c (by simp [hc]))

/-- If the input has no redirecting `<meta>` match the loop keeps the map. -/
lemma metaLoop_of_none (fuel : Nat) (s : List Char) (m : MetadataMap)
    (h : findMetaFrom s = none) : metaLoop fuel s m = m := by
  cases fuel <;> simp [metaLoop, h]

/-- C9: the extractor is a total function of the input HTML (it is defined
as a plain total function on all strings, with no failure path), and a tag
that never matches contributes no key: on any input with no `<` character at
all — where none of the title, meta, description, canonical or favicon
patterns can match — the resulting MetadataMap is empty. -/
theorem C9_extractor_no_match_no_keys (html : String)
    (hno : ∀ ch ∈ html.toList, ch ≠ '<') : parseHtml html = [] := by
  have htitle : scanFor matchTitleAt html.toList = none :=
    scanFor_eq_none _ _ (fun ch t hch => by simp [matchTitleAt, hch]) hno
  have hmeta : findMetaFrom html.toList = none :=
    scanFor_eq_none _ _ (fun ch t hch => by simp [matchMetaAt, hch]) hno
  have helem : ∀ (w : List Char) (ch : Char) (t : List Char), ch ≠ '<' →
      elemSeg w (ch :: t) = none := by
    intro w ch t hch
    simp [elemSeg, hch]
  have hdesc : descScan html.toList = none := by
    unfold descScan
    rw [scanFor_eq_none _ _ (fun ch t hch => by rw [helem _ _ _ hch]; rfl) hno,
      scanFor_eq_none _ _ (fun ch t hch => by rw [helem _ _ _ hch]; rfl) hno]
    rfl
  have hcanon : canonicalScan html.toList = none := by
    unfold canonicalScan
    rw [scanFor_eq_none _ _ (fun ch t hch => by rw [helem _ _ _ hch]; rfl) hno,
      scanFor_eq_none _ _ (fun ch t hch => by rw [helem _ _ _ hch]; rfl) hno]
    rfl
  have hfav : faviconScan html.toList = none := by
    unfold faviconScan
    rw [scanFor_eq_none _ _ (fun ch t hch => by rw [helem _ _ _ hch]; rfl) hno]
  unfold parseHtml
  simp only [htitle, hdesc, hcanon, hfav]
  rw [metaLoop_of_none _ _ _ hmeta]

/-- C9 witness on a concrete tagless (and hence trivially malformed-free)
input. -/
theorem C9_extractor_no_match_no_keys_witness :
    (∀ ch ∈ ("just some text, no angle brackets").toList, ch ≠ '<') ∧
    parseHtml "just some text, no angle brackets" = [] :=
  ⟨by decide, C9_extractor_no_match_no_keys "just some text, no angle brackets" (by decide)⟩
